import Mathlib

/-!
Shallow embedding of the audio broadcaster relay
(`station.py` and `station_server.py`): the frame timeline kept by
`Station`, the ingestion loop `Station.start_fill_buffer`, and the
per-client streaming loop `AudioHandler.get`.

Bytes are modelled as natural numbers, byte strings as `List Nat`,
audio frames as byte strings, and the frame timeline as a list of
frames.  The ingestion loop and the client loop are modelled as step
functions over explicit state records; the environment (socket reads,
connect outcomes, buffer contents seen between client iterations) is
passed in as explicit input.
-/

namespace AudioBroadcaster

/-- Constant `CHANNELS` from station.py. -/
def CHANNELS : Nat := 1

/-- Constant `RATE` from station.py (sample rate). -/
def RATE : Nat := 44100

/-- Constant `CHUNK` from station.py (frame byte size). -/
def CHUNK : Nat := 4096

/-- Constant `BUFFER_DURATION` from station.py. -/
def BUFFER_DURATION : Nat := 5

/-- A frame: one byte string. -/
abbrev Frame := List Nat

/-- The mutable state of a `Station` object that the claims concern:
the frame buffer (timeline), `current_pos`, the `_connected_mic` flag
and the two configuration attributes set in `Station.__init__`. -/
structure Station where
  buffer : List Frame
  current_pos : Option Int
  connected_mic : Bool
  max_buffer_len : Nat
  max_reconnection_attempts : Nat
deriving DecidableEq

/-- Embedding of `Station.add_frame_to_buffer`: append the frame and set
`current_pos = len(self.buffer) - 1` (length after the append). -/
def add_frame_to_buffer (s : Station) (frame : Frame) : Station :=
  let buffer := s.buffer ++ [frame]
  { s with buffer := buffer, current_pos := some ((buffer.length : Int) - 1) }

/-- Embedding of `Station.set_emtpy_buffer` (name kept as in the source):
clear the buffer and set `current_pos = None`. -/
def set_emtpy_buffer (s : Station) : Station :=
  { s with buffer := [], current_pos := none }

/-- The eviction conditional at the top of each `start_fill_buffer`
iteration: `if len(self.buffer) >= self.max_buffer_len: self.set_emtpy_buffer()`. -/
def evict_if_full (s : Station) : Station :=
  if s.max_buffer_len ≤ s.buffer.length then set_emtpy_buffer s else s

/-- Resolved start index of the Python slice `l[i:]` for an `Int` index
`i`: a non-negative `i` is used as is (`List.drop` clamps at the length,
as Python does), a negative `i` resolves to `max 0 (len + i)`. -/
def py_slice_start (len : Nat) (i : Int) : Nat :=
  if 0 ≤ i then i.toNat else ((len : Int) + i).toNat

/-- Embedding of the Python list slice `l[i:]` (as in
`self.station.buffer[self.from_pos:]`), total for every integer index. -/
def py_slice_from {α : Type} (l : List α) (i : Int) : List α :=
  l.drop (py_slice_start l.length i)

/-- State of one execution of `Station.start_fill_buffer`: the station,
the local variables `reconnection_attemps` (name kept as in the source)
and `audio_buffer`, whether the loop has exited (`break` reached), and a
ghost counter of how many times `self.connect()` has been invoked. -/
structure FillState where
  station : Station
  reconnection_attemps : Nat
  audio_buffer : List Nat
  terminated : Bool
  connect_attempts : Nat
deriving DecidableEq

/-- Environment input consumed by one iteration of the ingestion loop:
the byte string returned by `self.sock.recv(CHUNK)` (`[]` models the
zero-byte read, the connection-broken event), and whether a
`self.connect()` call would succeed if attempted this iteration. -/
structure StepInput where
  data : List Nat
  connect_ok : Bool
deriving DecidableEq

/-- The `except` branch of `start_fill_buffer`: increment
`reconnection_attemps`; if it is still within
`self.max_reconnection_attempts`, invoke `self.connect()` (on success
set the connected flag and `set_emtpy_buffer`, on failure just
continue); otherwise `break` out of the loop. -/
def handle_exception (st : FillState) (inp : StepInput) : FillState :=
  let n := st.reconnection_attemps + 1
  if n ≤ st.station.max_reconnection_attempts then
    if inp.connect_ok then
      { st with
        reconnection_attemps := n,
        connect_attempts := st.connect_attempts + 1,
        station := set_emtpy_buffer { st.station with connected_mic := true } }
    else
      { st with
        reconnection_attemps := n,
        connect_attempts := st.connect_attempts + 1 }
  else
    { st with reconnection_attemps := n, terminated := true }

/-- One iteration of the `while True` loop of `Station.start_fill_buffer`.
In source order: if the loop already exited, nothing happens; otherwise
`assert_microphone_connected` (raising into the `except` branch when the
flag is down), the unconditional `self.max_reconnection_attempts = 5`,
the eviction check, the `recv` (a zero-byte result raising into the
`except` branch), and the accumulate-and-cut step. -/
def step_fill_buffer (st : FillState) (inp : StepInput) : FillState :=
  if st.terminated then st
  else if st.station.connected_mic then
    let s1 := { st.station with max_reconnection_attempts := 5 }
    let s2 := evict_if_full s1
    if inp.data = [] then
      handle_exception { st with station := s2 } inp
    else
      let acc := st.audio_buffer ++ inp.data
      if RATE * BUFFER_DURATION ≤ acc.length then
        { st with
          station := add_frame_to_buffer s2 (acc.take CHUNK),
          audio_buffer := acc.drop CHUNK }
      else
        { st with station := s2, audio_buffer := acc }
  else
    handle_exception st inp

/-- Run the ingestion loop over a list of environment inputs. -/
def run_fill_buffer (st : FillState) : List StepInput → FillState
  | [] => st
  | inp :: rest => run_fill_buffer (step_fill_buffer st inp) rest

/-- The cursor anchor computed on entry to `AudioHandler.get`:
`len(buffer) - 1 if len(buffer) > 0 else 0`. -/
def initial_from_pos (buffer : List Frame) : Int :=
  if 0 < buffer.length then (buffer.length : Int) - 1 else 0

/-- What one client loop iteration did: slept (buffer too small) or
invoked the transcoder on the recorded pending slice. -/
inductive SessionAction where
  | wait
  | transmit (pending : List Frame)
deriving DecidableEq

/-- One iteration of the `while self.is_client_connected` loop of
`AudioHandler.get`, given the timeline contents `buffer` observed by
this iteration: compute `client_buffer = buffer[from_pos:]`; when it is
shorter than `client_buffer_min_length`, sleep and retry with the cursor
unchanged; otherwise transcode and transmit it and set
`from_pos = len(buffer) - 1`.  The iteration sees a single buffer
snapshot: the transmit path of `get` contains no await point (the
transcoding generator never awaits and `flush()` is not awaited), so
under cooperative scheduling the ingestion task cannot run between the
slice computation and the cursor update; the buffer can change only
across iterations (at the sleep). -/
def session_step (buffer : List Frame) (from_pos : Int)
    (client_buffer_min_length : Nat) : SessionAction × Int :=
  let client_buffer := py_slice_from buffer from_pos
  if client_buffer.length < client_buffer_min_length then
    (SessionAction.wait, from_pos)
  else
    (SessionAction.transmit client_buffer, (buffer.length : Int) - 1)

/-- Run the client loop over the sequence of timeline snapshots observed
by successive iterations (the timeline may change arbitrarily between
iterations), returning the final cursor. -/
def session_run (buffers : List (List Frame)) (from_pos : Int)
    (client_buffer_min_length : Nat) : Int :=
  match buffers with
  | [] => from_pos
  | b :: rest =>
      session_run rest (session_step b from_pos client_buffer_min_length).2
        client_buffer_min_length

/-! Helper lemmas about the slice embedding and the two loops. -/

/-- The Python slice `l[i:]` is a suffix of `l` for every integer index. -/
theorem py_slice_from_isSuffix {α : Type} (l : List α) (i : Int) :
    List.IsSuffix (py_slice_from l i) l :=
  List.drop_suffix _ l

/-- The Python slice `l[i:]` is empty whenever `i` is at least the length. -/
theorem py_slice_from_eq_nil_of_le {α : Type} (l : List α) (i : Int)
    (h : (l.length : Int) ≤ i) : py_slice_from l i = [] := by
  have h0 : 0 ≤ i := le_trans (by positivity) h
  have hlen : l.length ≤ i.toNat := by omega
  simp [py_slice_from, py_slice_start, h0, List.drop_eq_nil_of_le hlen]

/-- The slice never holds more elements than the list. -/
theorem py_slice_from_length_le {α : Type} (l : List α) (i : Int) :
    (py_slice_from l i).length ≤ l.length := by
  simp [py_slice_from]

/-- Anatomy of a transmitting client iteration: the transcoded slice is
exactly `buffer[from_pos:]`, it passed the minimum-length check, and the
cursor was then set to `len(buffer) - 1`. -/
theorem session_step_transmit_spec (b : List Frame) (cursor : Int) (m : Nat)
    (p : List Frame) (h : (session_step b cursor m).1 = SessionAction.transmit p) :
    p = py_slice_from b cursor ∧ m ≤ p.length ∧
    (session_step b cursor m).2 = (b.length : Int) - 1 := by
  by_cases hlt : (py_slice_from b cursor).length < m
  · simp [session_step, hlt] at h
  · have h1 : session_step b cursor m =
        (SessionAction.transmit (py_slice_from b cursor), (b.length : Int) - 1) := by
      simp [session_step, hlt]
    rw [h1] at h
    simp only [SessionAction.transmit.injEq] at h
    exact ⟨h.symm, h ▸ le_of_not_lt hlt, by rw [h1]⟩

/-- A client iteration whose pending slice is shorter than the minimum
sleeps and leaves the cursor unchanged. -/
theorem session_step_wait_spec (b : List Frame) (cursor : Int) (m : Nat)
    (h : (py_slice_from b cursor).length < m) :
    session_step b cursor m = (SessionAction.wait, cursor) := by
  simp [session_step, h]

/-- Concrete timeline of 50 pairwise distinct one-byte frames, frame `i`
holding byte `i`. -/
def fifty_frames : List Frame := (List.range 50).map (fun i => [i])

/-- C1 counterexample: with a timeline of 50 distinct frames,
`client_buffer_min_length = 50` and cursor 0, the iteration transmits
all 50 frames but then sets the cursor to 49, not to the timeline
length 50; the next pending slice over the unchanged timeline is
`[[49]]`, whose frame was already transmitted. -/
theorem claimC1_counterexample :
    (session_step fifty_frames 0 50).1 = SessionAction.transmit fifty_frames ∧
    (session_step fifty_frames 0 50).2 ≠ (fifty_frames.length : Int) ∧
    py_slice_from fifty_frames (session_step fifty_frames 0 50).2 = [[49]] ∧
    [49] ∈ fifty_frames := by
  decide

/-- C1 (amended): after a transmitting client iteration the cursor is
advanced to `len(buffer) - 1`, one less than the timeline length, so the
pending slice recomputed over the unchanged timeline is the nonempty
one-frame suffix `buffer[len - 1:]`, a suffix of the slice just
transmitted — the session re-serves exactly the last transmitted frame
index rather than none. -/
theorem claimC1_theorem (b : List Frame) (cursor : Int) (m : Nat)
    (p : List Frame) (hm : 1 ≤ m)
    (h : (session_step b cursor m).1 = SessionAction.transmit p) :
    (session_step b cursor m).2 = (b.length : Int) - 1 ∧
    py_slice_from b ((b.length : Int) - 1) = b.drop (b.length - 1) ∧
    b.drop (b.length - 1) ≠ [] ∧
    List.IsSuffix (b.drop (b.length - 1)) p := by
  obtain ⟨hp, hlen, hsnd⟩ := session_step_transmit_spec b cursor m p h
  have hple : p.length ≤ b.length := hp ▸ py_slice_from_length_le b cursor
  have hb1 : 1 ≤ b.length := le_trans (le_trans hm hlen) hple
  refine ⟨hsnd, ?_, ?_, ?_⟩
  · have h0 : (0 : Int) ≤ (b.length : Int) - 1 := by omega
    have : ((b.length : Int) - 1).toNat = b.length - 1 := by omega
    simp [py_slice_from, py_slice_start, h0, this]
  · intro hnil
    have := congrArg List.length hnil
    simp [List.length_drop] at this
    omega
  · have hs : p = b.drop (py_slice_start b.length cursor) := hp
    set s := py_slice_start b.length cursor with hsdef
    have hplen : p.length = b.length - s := by
      rw [hs]; exact List.length_drop s b
    have hsle : s ≤ b.length - 1 := by omega
    have : b.drop (b.length - 1) = (b.drop s).drop (b.length - 1 - s) := by
      rw [List.drop_drop]
      congr 1
      omega
    rw [this, hs]
    exact List.drop_suffix _ _

/-- C6: Backpressure — whenever a client iteration invokes the
transcoder, its argument is exactly the pending slice
`buffer[from_pos:]` whose length was just checked, and the length is at
least `client_buffer_min_length`. -/
theorem claimC6_theorem (b : List Frame) (cursor : Int) (m : Nat)
    (p : List Frame) (h : (session_step b cursor m).1 = SessionAction.transmit p) :
    p = py_slice_from b cursor ∧ m ≤ p.length := by
  obtain ⟨hp, hlen, -⟩ := session_step_transmit_spec b cursor m p h
  exact ⟨hp, hlen⟩

/-- C6 witness: a concrete transmitting iteration, with 50 pending
frames and minimum 50. -/
theorem claimC6_witness :
    (session_step ((List.range 50).map (fun i => [i])) 0 50).1 =
      SessionAction.transmit ((List.range 50).map (fun i => [i])) ∧
    ((List.range 50).map (fun i : Nat => [i]) : List Frame) =
      py_slice_from ((List.range 50).map (fun i => [i])) 0 ∧
    50 ≤ ((List.range 50).map (fun i : Nat => [i]) : List Frame).length := by
  have h : (session_step ((List.range 50).map (fun i => [i])) 0 50).1 =
      SessionAction.transmit ((List.range 50).map (fun i => [i])) := by decide
  exact ⟨h, claimC6_theorem _ 0 50 _ h⟩

/-- C7: Cursor safety — for every integer cursor and every timeline,
`buffer[cursor:]` is total (the embedding is a function), is a suffix of
the timeline (hence contiguous and in timeline order), and is empty
whenever the cursor is at least the timeline length. -/
theorem claimC7_theorem (b : List Frame) (cursor : Int) :
    List.IsSuffix (py_slice_from b cursor) b ∧
    ((b.length : Int) ≤ cursor → py_slice_from b cursor = []) :=
  ⟨py_slice_from_isSuffix b cursor, py_slice_from_eq_nil_of_le b cursor⟩

/-- C7 witness: the suffix and emptiness facts at the concrete timeline
`[[1],[2],[3]]` with stale cursor 5. -/
theorem claimC7_witness :
    List.IsSuffix (py_slice_from [[1],[2],[3]] 5) [[1],[2],[3]] ∧
    py_slice_from ([[1],[2],[3]] : List Frame) 5 = [] :=
  ⟨(claimC7_theorem [[1],[2],[3]] 5).1,
   (claimC7_theorem [[1],[2],[3]] 5).2 (by decide)⟩

/-! Lemmas about the ingestion loop. -/

/-- A station whose microphone flag is up, as after a successful
`connect()`. -/
def connected_station (B : List Frame) (cp : Option Int) (M a : Nat) : Station :=
  { buffer := B, current_pos := cp, connected_mic := true,
    max_buffer_len := M, max_reconnection_attempts := a }

/-- The loop state at entry of `start_fill_buffer`:
`reconnection_attemps = 0` and `audio_buffer = b""`. -/
def start_state (s : Station) : FillState :=
  { station := s, reconnection_attemps := 0, audio_buffer := [],
    terminated := false, connect_attempts := 0 }

/-- The environment input in which the read is a zero-byte read and a
connect attempt, if made, fails. -/
def all_fail : StepInput := ⟨[], false⟩

/-- A step from an exited loop changes nothing. -/
theorem step_fill_buffer_terminated (st : FillState) (inp : StepInput)
    (h : st.terminated = true) : step_fill_buffer st inp = st := by
  simp [step_fill_buffer, h]

/-- A run from an exited loop changes nothing. -/
theorem run_fill_buffer_terminated (st : FillState) (tr : List StepInput)
    (h : st.terminated = true) : run_fill_buffer st tr = st := by
  induction tr with
  | nil => rfl
  | cons a t ih => rw [run_fill_buffer, step_fill_buffer_terminated st a h, ih]

/-- Running over concatenated input runs the pieces in order. -/
theorem run_fill_buffer_append (st : FillState) (t1 t2 : List StepInput) :
    run_fill_buffer st (t1 ++ t2) = run_fill_buffer (run_fill_buffer st t1) t2 := by
  induction t1 generalizing st with
  | nil => rfl
  | cons a t ih => rw [List.cons_append, run_fill_buffer, run_fill_buffer, ih]

/-- A failing iteration within budget: the read breaks, the connect
attempt fails, the attempt counter and the ghost connect counter grow by
one and nothing else changes (the buffer stays below the cap). -/
theorem step_fail_retry (B : List Frame) (cp : Option Int) (M j c : Nat)
    (ab : List Nat) (hB : B.length < M) (hj : j < 5) :
    step_fill_buffer
      { station := connected_station B cp M 5, reconnection_attemps := j,
        audio_buffer := ab, terminated := false, connect_attempts := c } all_fail =
      { station := connected_station B cp M 5, reconnection_attemps := j + 1,
        audio_buffer := ab, terminated := false, connect_attempts := c + 1 } := by
  have hev : ¬ (M ≤ B.length) := by omega
  have hn : j + 1 ≤ 5 := hj
  simp [step_fill_buffer, evict_if_full, handle_exception, connected_station,
        all_fail, hev, hn]

/-- The sixth consecutive failure: the counter passes the budget and the
loop breaks without a further connect attempt. -/
theorem step_fail_break (B : List Frame) (cp : Option Int) (M c : Nat)
    (ab : List Nat) (hB : B.length < M) :
    step_fill_buffer
      { station := connected_station B cp M 5, reconnection_attemps := 5,
        audio_buffer := ab, terminated := false, connect_attempts := c } all_fail =
      { station := connected_station B cp M 5, reconnection_attemps := 6,
        audio_buffer := ab, terminated := true, connect_attempts := c } := by
  have hev : ¬ (M ≤ B.length) := by omega
  simp [step_fill_buffer, evict_if_full, handle_exception, connected_station,
        all_fail, hev]

/-- Six all-fail iterations from loop entry: five connect attempts are
made, the sixth failure exits the loop, and the buffer is untouched. -/
theorem run_six_fail (B : List Frame) (cp : Option Int) (M : Nat)
    (hB : B.length < M) :
    run_fill_buffer (start_state (connected_station B cp M 5))
        (List.replicate 6 all_fail) =
      { station := connected_station B cp M 5, reconnection_attemps := 6,
        audio_buffer := [], terminated := true, connect_attempts := 5 } := by
  have h6 : List.replicate 6 all_fail =
      [all_fail, all_fail, all_fail, all_fail, all_fail, all_fail] := rfl
  rw [h6, start_state]
  rw [run_fill_buffer, step_fail_retry B cp M 0 0 [] hB (by omega)]
  rw [run_fill_buffer, step_fail_retry B cp M 1 1 [] hB (by omega)]
  rw [run_fill_buffer, step_fail_retry B cp M 2 2 [] hB (by omega)]
  rw [run_fill_buffer, step_fail_retry B cp M 3 3 [] hB (by omega)]
  rw [run_fill_buffer, step_fail_retry B cp M 4 4 [] hB (by omega)]
  rw [run_fill_buffer, step_fail_break B cp M 5 [] hB]
  rfl

/-- C5: Reconnect bound — in a run of the ingestion loop in which every
read is a zero-byte read and every connect attempt fails, started at
loop entry from a connected station whose buffer holds fewer than
`max_buffer_len` frames, exactly 5 connect attempts are made, the loop
reaches the absorbing exited state (longer failing input makes no
further attempt), and the frame timeline is left exactly as it was. -/
theorem claimC5_theorem (B : List Frame) (cp : Option Int) (M k : Nat)
    (hB : B.length < M) (hk : 6 ≤ k) :
    (run_fill_buffer (start_state (connected_station B cp M 5))
        (List.replicate k all_fail)).terminated = true ∧
    (run_fill_buffer (start_state (connected_station B cp M 5))
        (List.replicate k all_fail)).connect_attempts = 5 ∧
    (run_fill_buffer (start_state (connected_station B cp M 5))
        (List.replicate k all_fail)).station.buffer = B := by
  obtain ⟨m, rfl⟩ : ∃ m, k = 6 + m := ⟨k - 6, by omega⟩
  rw [List.replicate_add, run_fill_buffer_append, run_six_fail B cp M hB,
      run_fill_buffer_terminated _ _ rfl]
  exact ⟨rfl, rfl, rfl⟩

/-- C5 witness: the reconnect bound at a concrete one-frame timeline,
cap 1000, with nine failing iterations. -/
theorem claimC5_witness :
    ([[0]] : List Frame).length < 1000 ∧ 6 ≤ 9 ∧
    ((run_fill_buffer (start_state (connected_station [[0]] (some 0) 1000 5))
        (List.replicate 9 all_fail)).terminated = true ∧
     (run_fill_buffer (start_state (connected_station [[0]] (some 0) 1000 5))
        (List.replicate 9 all_fail)).connect_attempts = 5 ∧
     (run_fill_buffer (start_state (connected_station [[0]] (some 0) 1000 5))
        (List.replicate 9 all_fail)).station.buffer = [[0]]) :=
  ⟨by decide, by decide, claimC5_theorem [[0]] (some 0) 1000 9 (by decide) (by decide)⟩

/-- C2: the claim fails on the code — the attempt counter is never reset
on a successful reconnect, so failures separated by successful
reconnects still accumulate.  Evaluated here: six zero-byte reads, each
immediately answered by a successful reconnect (five successful connect
attempts, never two consecutive failures), still drive the loop into the
exited state. -/
theorem claimC2_theorem :
    (run_fill_buffer (start_state (connected_station [] none 1000 5))
        (List.replicate 6 ⟨[], true⟩)).terminated = true ∧
    (run_fill_buffer (start_state (connected_station [] none 1000 5))
        (List.replicate 6 ⟨[], true⟩)).connect_attempts = 5 ∧
    (run_fill_buffer (start_state (connected_station [] none 1000 5))
        (List.replicate 6 ⟨[], true⟩)).reconnection_attemps = 6 := by
  decide

/-- The `except` branch never touches `max_buffer_len`. -/
theorem handle_exception_mbl (st : FillState) (inp : StepInput) :
    (handle_exception st inp).station.max_buffer_len = st.station.max_buffer_len := by
  simp only [handle_exception]
  split
  · split <;> simp [set_emtpy_buffer]
  · rfl

/-- The `except` branch never touches `max_reconnection_attempts`. -/
theorem handle_exception_mra (st : FillState) (inp : StepInput) :
    (handle_exception st inp).station.max_reconnection_attempts =
      st.station.max_reconnection_attempts := by
  simp only [handle_exception]
  split
  · split <;> simp [set_emtpy_buffer]
  · rfl

/-- The `except` branch leaves the timeline alone or clears it (the
clear happens exactly on a successful reconnect). -/
theorem handle_exception_buffer (st : FillState) (inp : StepInput) :
    (handle_exception st inp).station.buffer = st.station.buffer ∨
    (handle_exception st inp).station.buffer = [] := by
  simp only [handle_exception]
  split
  · split
    · exact Or.inr (by simp [set_emtpy_buffer])
    · exact Or.inl rfl
  · exact Or.inl rfl

/-- Eviction never touches `max_buffer_len`. -/
theorem evict_if_full_mbl (s : Station) :
    (evict_if_full s).max_buffer_len = s.max_buffer_len := by
  unfold evict_if_full
  split <;> simp [set_emtpy_buffer]

/-- Eviction never touches `max_reconnection_attempts`. -/
theorem evict_if_full_mra (s : Station) :
    (evict_if_full s).max_reconnection_attempts = s.max_reconnection_attempts := by
  unfold evict_if_full
  split <;> simp [set_emtpy_buffer]

/-- Once every connected iteration of the loop body runs, the budget
attribute holds 5 when the iteration ends, whatever it held before. -/
theorem step_fill_buffer_max_five (st : FillState) (inp : StepInput)
    (hc : st.station.connected_mic = true) (ht : st.terminated = false) :
    (step_fill_buffer st inp).station.max_reconnection_attempts = 5 := by
  have ht' : ¬ st.terminated = true := by simp [ht]
  simp only [step_fill_buffer, if_neg ht', if_pos hc]
  split
  · simp [handle_exception_mra, evict_if_full_mra]
  · split <;> simp [add_frame_to_buffer, evict_if_full_mra]

/-- C10: with the microphone-connected check passing and the loop not
yet exited, the loop body overwrites `max_reconnection_attempts` to 5
before anything can fail, so the step does not depend on the previously
configured value at all — stepping a state whose budget attribute was
reconfigured to any `v` gives the identical result — and the attribute
holds 5 after every such iteration. -/
theorem claimC10_theorem (st : FillState) (inp : StepInput) (v : Nat)
    (hc : st.station.connected_mic = true) (ht : st.terminated = false) :
    step_fill_buffer
        { st with station :=
            { st.station with max_reconnection_attempts := v } } inp =
      step_fill_buffer st inp ∧
    (step_fill_buffer st inp).station.max_reconnection_attempts = 5 := by
  obtain ⟨⟨bf, cpos, cm, mbl, mra⟩, ra, ab, tm, ca⟩ := st
  refine ⟨?_, step_fill_buffer_max_five _ inp hc ht⟩
  simp only at hc ht
  subst hc
  subst ht
  rfl

/-- C10 witness: reconfiguring the budget to 7 on a concrete connected
state does not change the step, and the budget after the step is 5. -/
theorem claimC10_witness :
    (({ station := connected_station [] none 1000 5, reconnection_attemps := 0,
        audio_buffer := [], terminated := false,
        connect_attempts := 0 } : FillState).station.connected_mic = true) ∧
    (step_fill_buffer
        { station := { connected_station [] none 1000 5 with
            max_reconnection_attempts := 7 }, reconnection_attemps := 0,
          audio_buffer := [], terminated := false, connect_attempts := 0 }
        ⟨[1], true⟩ =
      step_fill_buffer
        { station := connected_station [] none 1000 5, reconnection_attemps := 0,
          audio_buffer := [], terminated := false, connect_attempts := 0 }
        ⟨[1], true⟩ ∧
     (step_fill_buffer
        { station := connected_station [] none 1000 5, reconnection_attemps := 0,
          audio_buffer := [], terminated := false, connect_attempts := 0 }
        ⟨[1], true⟩).station.max_reconnection_attempts = 5) :=
  ⟨rfl, claimC10_theorem
    { station := connected_station [] none 1000 5, reconnection_attemps := 0,
      audio_buffer := [], terminated := false, connect_attempts := 0 }
    ⟨[1], true⟩ 7 rfl rfl⟩

/-- After the eviction check the buffer is strictly below the cap
(whatever it held before), provided the cap is positive. -/
theorem evict_if_full_length_lt (s : Station) (hM : 1 ≤ s.max_buffer_len) :
    (evict_if_full s).buffer.length < s.max_buffer_len := by
  by_cases h : s.max_buffer_len ≤ s.buffer.length
  · simp only [evict_if_full, if_pos h, set_emtpy_buffer]
    simpa using hM
  · simp only [evict_if_full, if_neg h]
    omega

/-- The loop body never touches `max_buffer_len`. -/
theorem step_fill_buffer_mbl (st : FillState) (inp : StepInput) :
    (step_fill_buffer st inp).station.max_buffer_len = st.station.max_buffer_len := by
  simp only [step_fill_buffer]
  split
  · rfl
  · split
    · split
      · simp [handle_exception_mbl, evict_if_full_mbl]
      · split <;> simp [add_frame_to_buffer, evict_if_full_mbl]
    · simp [handle_exception_mbl]

/-- The loop body on the path where the connected assertion passes and
the read breaks: eviction runs, then the `except` branch. -/
theorem step_eq_exception_conn (st : FillState) (inp : StepInput)
    (hc : st.station.connected_mic = true) (ht : st.terminated = false)
    (hd : inp.data = []) :
    step_fill_buffer st inp =
      handle_exception
        { st with station :=
            evict_if_full ({ st.station with max_reconnection_attempts := 5 }) }
        inp := by
  have ht' : ¬ st.terminated = true := by simp [ht]
  simp only [step_fill_buffer, if_neg ht', if_pos hc, if_pos hd]

/-- The loop body on the path where the read succeeds and the enlarged
accumulation buffer reaches the threshold: cut and append. -/
theorem step_eq_cut (st : FillState) (inp : StepInput)
    (hc : st.station.connected_mic = true) (ht : st.terminated = false)
    (hd : ¬ inp.data = [])
    (hthr : RATE * BUFFER_DURATION ≤ (st.audio_buffer ++ inp.data).length) :
    step_fill_buffer st inp =
      { st with
        station := add_frame_to_buffer
          (evict_if_full ({ st.station with max_reconnection_attempts := 5 }))
          ((st.audio_buffer ++ inp.data).take CHUNK),
        audio_buffer := (st.audio_buffer ++ inp.data).drop CHUNK } := by
  have ht' : ¬ st.terminated = true := by simp [ht]
  simp only [step_fill_buffer, if_neg ht', if_pos hc, if_neg hd, if_pos hthr]

/-- The loop body on the path where the read succeeds and the enlarged
accumulation buffer stays below the threshold: accumulate only. -/
theorem step_eq_nocut (st : FillState) (inp : StepInput)
    (hc : st.station.connected_mic = true) (ht : st.terminated = false)
    (hd : ¬ inp.data = [])
    (hthr : ¬ RATE * BUFFER_DURATION ≤ (st.audio_buffer ++ inp.data).length) :
    step_fill_buffer st inp =
      { st with
        station := evict_if_full ({ st.station with max_reconnection_attempts := 5 }),
        audio_buffer := st.audio_buffer ++ inp.data } := by
  have ht' : ¬ st.terminated = true := by simp [ht]
  simp only [step_fill_buffer, if_neg ht', if_pos hc, if_neg hd, if_neg hthr]

/-- The loop body when the connected assertion fails: straight into the
`except` branch, with no overwrite and no eviction. -/
theorem step_eq_exception_disc (st : FillState) (inp : StepInput)
    (hc : ¬ st.station.connected_mic = true) (ht : st.terminated = false) :
    step_fill_buffer st inp = handle_exception st inp := by
  have ht' : ¬ st.terminated = true := by simp [ht]
  simp only [step_fill_buffer, if_neg ht', if_neg hc]

/-- After eviction of the budget-overwritten station, the buffer is
strictly below the original cap. -/
theorem evicted5_length_lt (s : Station) (hM : 1 ≤ s.max_buffer_len) :
    (evict_if_full ({ s with max_reconnection_attempts := 5 })).buffer.length <
      s.max_buffer_len := by
  simpa using evict_if_full_length_lt
    ({ s with max_reconnection_attempts := 5 }) (by simpa using hM)

/-- One loop iteration keeps the timeline within the cap. -/
theorem step_fill_buffer_length_le (st : FillState) (inp : StepInput)
    (hM : 1 ≤ st.station.max_buffer_len)
    (h : st.station.buffer.length ≤ st.station.max_buffer_len) :
    (step_fill_buffer st inp).station.buffer.length ≤ st.station.max_buffer_len := by
  by_cases ht : st.terminated = true
  · rw [step_fill_buffer_terminated st inp ht]; exact h
  · have ht' : st.terminated = false := by revert ht; cases st.terminated <;> simp
    have hev := evicted5_length_lt st.station hM
    by_cases hc : st.station.connected_mic = true
    · by_cases hd : inp.data = []
      · rw [step_eq_exception_conn st inp hc ht' hd]
        rcases handle_exception_buffer
            { st with station :=
              evict_if_full ({ st.station with max_reconnection_attempts := 5 }) } inp
          with hb | hb <;> rw [hb] <;> simp <;> omega
      · by_cases hthr : RATE * BUFFER_DURATION ≤ (st.audio_buffer ++ inp.data).length
        · rw [step_eq_cut st inp hc ht' hd hthr]
          simp only [add_frame_to_buffer, List.length_append, List.length_cons,
            List.length_nil]
          simp
          omega
        · rw [step_eq_nocut st inp hc ht' hd hthr]
          simp
          omega
    · rw [step_eq_exception_disc st inp hc ht']
      rcases handle_exception_buffer st inp with hb | hb <;> rw [hb] <;> simp <;> omega

/-- Every state reached by running the loop from a state within the cap
stays within the cap. -/
theorem run_fill_buffer_length_le (st : FillState) (tr : List StepInput)
    (hM : 1 ≤ st.station.max_buffer_len)
    (h : st.station.buffer.length ≤ st.station.max_buffer_len) :
    (run_fill_buffer st tr).station.buffer.length ≤ st.station.max_buffer_len := by
  induction tr generalizing st with
  | nil => exact h
  | cons a t ih =>
      rw [run_fill_buffer]
      have hmbl := step_fill_buffer_mbl st a
      have := ih (step_fill_buffer st a)
        (by rw [hmbl]; exact hM)
        (by rw [hmbl]; exact step_fill_buffer_length_le st a hM h)
      rw [hmbl] at this
      exact this

/-- A connected iteration starting at or above the cap resets before any
append, so it ends with at most one frame in the timeline. -/
theorem step_fill_buffer_evict_first (st : FillState) (inp : StepInput)
    (hc : st.station.connected_mic = true) (ht : st.terminated = false)
    (h : st.station.max_buffer_len ≤ st.station.buffer.length) :
    (step_fill_buffer st inp).station.buffer.length ≤ 1 := by
  have hev : (evict_if_full
      ({ st.station with max_reconnection_attempts := 5 })).buffer = [] := by
    simp only [evict_if_full]
    rw [if_pos (by simpa using h)]
    simp [set_emtpy_buffer]
  by_cases hd : inp.data = []
  · rw [step_eq_exception_conn st inp hc ht hd]
    rcases handle_exception_buffer
        { st with station :=
          evict_if_full ({ st.station with max_reconnection_attempts := 5 }) } inp
      with hb | hb <;> rw [hb] <;> simp [hev]
  · by_cases hthr : RATE * BUFFER_DURATION ≤ (st.audio_buffer ++ inp.data).length
    · rw [step_eq_cut st inp hc ht hd hthr]
      simp [add_frame_to_buffer, hev]
    · rw [step_eq_nocut st inp hc ht hd hthr]
      simp [hev]

/-- C4: Eviction invariant — a connected loop iteration entered with
`length() >= max_buffer_len` resets before its (possible) append, ending
with at most one frame; and any run of the loop from a state within the
cap keeps the timeline length at or below `max_buffer_len`, in
particular after every append. -/
theorem claimC4_theorem (M : Nat) (hM : 1 ≤ M) :
    (∀ st inp, st.station.connected_mic = true → st.terminated = false →
      st.station.max_buffer_len = M → M ≤ st.station.buffer.length →
      (step_fill_buffer st inp).station.buffer.length ≤ 1) ∧
    (∀ st tr, st.station.max_buffer_len = M →
      st.station.buffer.length ≤ M →
      (run_fill_buffer st tr).station.buffer.length ≤ M) := by
  constructor
  · intro st inp hc ht hM' h
    exact step_fill_buffer_evict_first st inp hc ht (by omega)
  · intro st tr hM' h
    have := run_fill_buffer_length_le st tr (by omega) (by omega)
    omega

/-- C4 witness: with cap 1, a connected full state resets before the
append, and a two-iteration run from an in-cap state stays within the
cap. -/
theorem claimC4_witness :
    ((1 : Nat) ≤ 1) ∧
    (step_fill_buffer (start_state (connected_station [[0]] (some 0) 1 5))
        ⟨[], false⟩).station.buffer.length ≤ 1 ∧
    (run_fill_buffer (start_state (connected_station [[0]] (some 0) 1 5))
        [⟨[1], true⟩, ⟨[2], true⟩]).station.buffer.length ≤ 1 :=
  ⟨by decide,
   (claimC4_theorem 1 (by decide)).1
     (start_state (connected_station [[0]] (some 0) 1 5)) ⟨[], false⟩
     rfl rfl rfl (by decide),
   (claimC4_theorem 1 (by decide)).2
     (start_state (connected_station [[0]] (some 0) 1 5)) [⟨[1], true⟩, ⟨[2], true⟩]
     rfl (by decide)⟩

/-- Overwriting the budget attribute does not change what eviction does
to the buffer. -/
theorem evict_if_full_buffer_update (s : Station) :
    (evict_if_full ({ s with max_reconnection_attempts := 5 })).buffer =
      (evict_if_full s).buffer := by
  simp only [evict_if_full]
  by_cases h : s.max_buffer_len ≤ s.buffer.length
  · rw [if_pos (by simpa using h), if_pos h]
    simp [set_emtpy_buffer]
  · rw [if_neg (by simpa using h), if_neg h]

/-- One cut is one `CHUNK`.  `CHUNK` is below the cut threshold, so the
first `CHUNK` bytes of a full accumulation buffer are a whole chunk. -/
theorem chunk_le_threshold : CHUNK ≤ RATE * BUFFER_DURATION := by decide

/-- Frames surviving eviction all keep their byte size. -/
theorem evict_if_full_frames (s : Station)
    (h : ∀ f ∈ s.buffer, f.length = CHUNK) :
    ∀ f ∈ (evict_if_full ({ s with max_reconnection_attempts := 5 })).buffer,
      f.length = CHUNK := by
  rw [evict_if_full_buffer_update]
  simp only [evict_if_full]
  split
  · simp [set_emtpy_buffer]
  · exact h

/-- One loop iteration preserves the all-frames-are-one-chunk property. -/
theorem step_fill_buffer_frames (st : FillState) (inp : StepInput)
    (h : ∀ f ∈ st.station.buffer, f.length = CHUNK) :
    ∀ f ∈ (step_fill_buffer st inp).station.buffer, f.length = CHUNK := by
  by_cases ht : st.terminated = true
  · rw [step_fill_buffer_terminated st inp ht]; exact h
  · have ht' : st.terminated = false := by revert ht; cases st.terminated <;> simp
    by_cases hc : st.station.connected_mic = true
    · by_cases hd : inp.data = []
      · rw [step_eq_exception_conn st inp hc ht' hd]
        rcases handle_exception_buffer
            { st with station :=
              evict_if_full ({ st.station with max_reconnection_attempts := 5 }) } inp
          with hb | hb <;> rw [hb]
        · exact evict_if_full_frames st.station h
        · simp
      · by_cases hthr : RATE * BUFFER_DURATION ≤ (st.audio_buffer ++ inp.data).length
        · rw [step_eq_cut st inp hc ht' hd hthr]
          simp only [add_frame_to_buffer]
          intro f hf
          rcases List.mem_append.mp hf with hf | hf
          · exact evict_if_full_frames st.station h f hf
          · have hfe : f = (st.audio_buffer ++ inp.data).take CHUNK := by
              simpa using hf
            subst hfe
            have := chunk_le_threshold
            simp only [List.length_take]
            omega
        · rw [step_eq_nocut st inp hc ht' hd hthr]
          exact evict_if_full_frames st.station h
    · rw [step_eq_exception_disc st inp hc ht']
      rcases handle_exception_buffer st inp with hb | hb <;> rw [hb]
      · exact h
      · simp

/-- Every frame in the timeline of any state reached by the loop from a
state whose frames are all one chunk is itself one chunk. -/
theorem run_fill_buffer_frames (st : FillState) (tr : List StepInput)
    (h : ∀ f ∈ st.station.buffer, f.length = CHUNK) :
    ∀ f ∈ (run_fill_buffer st tr).station.buffer, f.length = CHUNK := by
  induction tr generalizing st with
  | nil => exact h
  | cons a t ih =>
      rw [run_fill_buffer]
      exact ih (step_fill_buffer st a) (step_fill_buffer_frames st a h)

/-- C8: Ingestion cut — in a connected iteration with a successful read,
exactly when the accumulation buffer (after concatenating the read
bytes) holds at least `RATE * BUFFER_DURATION` bytes, its first `CHUNK`
bytes are cut off as one frame and appended (after the eviction check)
and the remainder is retained; otherwise nothing is appended and the
whole accumulation is retained.  The cut frame has exactly `CHUNK`
bytes, and every timeline reached by the loop from a timeline of
`CHUNK`-sized frames holds only `CHUNK`-sized frames. -/
theorem claimC8_theorem (st : FillState) (inp : StepInput)
    (hc : st.station.connected_mic = true) (ht : st.terminated = false)
    (hd : inp.data ≠ []) :
    (RATE * BUFFER_DURATION ≤ (st.audio_buffer ++ inp.data).length →
      (step_fill_buffer st inp).audio_buffer =
        (st.audio_buffer ++ inp.data).drop CHUNK ∧
      (step_fill_buffer st inp).station.buffer =
        (evict_if_full st.station).buffer ++
          [(st.audio_buffer ++ inp.data).take CHUNK] ∧
      ((st.audio_buffer ++ inp.data).take CHUNK).length = CHUNK) ∧
    ((st.audio_buffer ++ inp.data).length < RATE * BUFFER_DURATION →
      (step_fill_buffer st inp).audio_buffer = st.audio_buffer ++ inp.data ∧
      (step_fill_buffer st inp).station.buffer = (evict_if_full st.station).buffer) ∧
    (∀ st0 tr, (∀ f ∈ st0.station.buffer, f.length = CHUNK) →
      ∀ f ∈ (run_fill_buffer st0 tr).station.buffer, f.length = CHUNK) := by
  refine ⟨?_, ?_, run_fill_buffer_frames⟩
  · intro hthr
    rw [step_eq_cut st inp hc ht hd hthr]
    refine ⟨rfl, ?_, ?_⟩
    · simp only [add_frame_to_buffer]
      rw [evict_if_full_buffer_update]
    · have := chunk_le_threshold
      simp only [List.length_take]
      omega
  · intro hthr
    rw [step_eq_nocut st inp hc ht hd (by omega)]
    exact ⟨rfl, evict_if_full_buffer_update st.station⟩

/-- C8 witness: a connected iteration reading one byte onto an empty
accumulation buffer stays below the threshold, so nothing is appended
and the byte is retained. -/
theorem claimC8_witness :
    (step_fill_buffer (start_state (connected_station [] none 1000 5))
        ⟨[1], true⟩).audio_buffer =
      (start_state (connected_station [] none 1000 5)).audio_buffer ++ [1] ∧
    (step_fill_buffer (start_state (connected_station [] none 1000 5))
        ⟨[1], true⟩).station.buffer =
      (evict_if_full (start_state (connected_station [] none 1000 5)).station).buffer :=
  (claimC8_theorem (start_state (connected_station [] none 1000 5)) ⟨[1], true⟩
      rfl rfl (by decide)).2.1 (by decide)

/-- The initial cursor anchor is never negative: the guard in `get`
anchors at `len - 1` only when the timeline is non-empty, else at 0. -/
theorem initial_from_pos_nonneg (b : List Frame) : 0 ≤ initial_from_pos b := by
  unfold initial_from_pos
  split <;> omega

/-- A client iteration entered with a non-negative cursor leaves a
non-negative cursor, given a positive minimum batch size: a transmit
requires at least one pending frame, so the timeline is non-empty and
`len - 1 ≥ 0`. -/
theorem session_step_snd_nonneg (b : List Frame) (c : Int) (m : Nat)
    (hm : 1 ≤ m) (hc : 0 ≤ c) : 0 ≤ (session_step b c m).2 := by
  by_cases h : (py_slice_from b c).length < m
  · rw [session_step_wait_spec b c m h]
    exact hc
  · have hlen : m ≤ (py_slice_from b c).length := le_of_not_lt h
    have hble : (py_slice_from b c).length ≤ b.length := py_slice_from_length_le b c
    have h1 : (session_step b c m).2 = (b.length : Int) - 1 := by
      simp [session_step, h]
    rw [h1]
    omega

/-- The cursor stays non-negative along any run of the client loop. -/
theorem session_run_nonneg (bs : List (List Frame)) (c : Int) (m : Nat)
    (hm : 1 ≤ m) (hc : 0 ≤ c) : 0 ≤ session_run bs c m := by
  induction bs generalizing c with
  | nil => exact hc
  | cons b t ih => exact ih _ (session_step_snd_nonneg b c m hm hc)

/-- C3: for a positive minimum batch size, every cursor reachable by the
client loop from its initial anchor is non-negative (in particular a
transmit with an empty timeline, which would yield the offset -1, never
happens: a transmit needs at least one pending frame), and a stale
cursor at or past the timeline length makes the iteration compute an
empty pending slice and wait, cursor unchanged. -/
theorem claimC3_theorem (m : Nat) (hm : 1 ≤ m) :
    (∀ b0 bs, 0 ≤ session_run bs (initial_from_pos b0) m) ∧
    (∀ b c, 0 ≤ c → 0 ≤ (session_step b c m).2) ∧
    (∀ b c, (b.length : Int) ≤ c →
      py_slice_from b c = [] ∧ session_step b c m = (SessionAction.wait, c)) := by
  refine ⟨?_, ?_, ?_⟩
  · intro b0 bs
    exact session_run_nonneg bs _ m hm (initial_from_pos_nonneg b0)
  · intro b c hc
    exact session_step_snd_nonneg b c m hm hc
  · intro b c hstale
    have hnil : py_slice_from b c = [] := py_slice_from_eq_nil_of_le b c hstale
    refine ⟨hnil, session_step_wait_spec b c m ?_⟩
    rw [hnil]
    simpa using hm

/-- C3 witness: with minimum 50, concrete runs keep the cursor
non-negative and a stale cursor waits. -/
theorem claimC3_witness :
    (1 ≤ 50) ∧
    0 ≤ session_run [[[1], [2]], []] (initial_from_pos [[0]]) 50 ∧
    0 ≤ (session_step [[1]] 3 50).2 ∧
    (py_slice_from ([[1]] : List Frame) 3 = [] ∧
      session_step [[1]] 3 50 = (SessionAction.wait, 3)) :=
  ⟨by decide,
   (claimC3_theorem 50 (by decide)).1 [[0]] [[[1], [2]], []],
   (claimC3_theorem 50 (by decide)).2.1 [[1]] 3 (by decide),
   (claimC3_theorem 50 (by decide)).2.2 [[1]] 3 (by decide)⟩

/-- C1 witness: a concrete transmitting iteration on a two-frame
timeline with minimum 1 re-includes the last transmitted frame. -/
theorem claimC1_witness :
    (1 ≤ 1) ∧
    ((session_step [[1], [2]] 0 1).1 = SessionAction.transmit [[1], [2]]) ∧
    ((session_step [[1], [2]] 0 1).2 = (([[1], [2]] : List Frame).length : Int) - 1 ∧
     py_slice_from [[1], [2]] ((([[1], [2]] : List Frame).length : Int) - 1) =
       ([[1], [2]] : List Frame).drop (([[1], [2]] : List Frame).length - 1) ∧
     ([[1], [2]] : List Frame).drop (([[1], [2]] : List Frame).length - 1) ≠ [] ∧
     List.IsSuffix
       (([[1], [2]] : List Frame).drop (([[1], [2]] : List Frame).length - 1))
       [[1], [2]]) :=
  ⟨by decide, by decide,
   claimC1_theorem [[1], [2]] 0 1 [[1], [2]] (by decide) (by decide)⟩

end AudioBroadcaster
